import Mathlib

/-!
# Verification of the laravel-echo-nats connector core

Shallow embedding of the TypeScript source of the `laravel-echo-nats`
repository: the NATS frame decoder, the connection/protocol handlers and the
channel abstraction of `NatsConnector` (src/unnamed/part_001), the channel
classes (src/unnamed/part_002), the presence channel
(src/src/presence-channel.ts) and the event formatter
(src/unnamed/part_000), together with theorems about the behaviour of this
code.

JavaScript strings are modelled as `List Char` (all inputs considered here
are ASCII, where UTF-16 length, byte length and character count coincide).
JavaScript numbers appearing as byte counts are modelled as `Int`
(`parseInt` yields integers; `NaN` is modelled by `Option`); the reconnect
delay computation is modelled over `ℚ`, which is exact for the values the
code computes (products `base·1.5^k` for small `k` are exactly representable
IEEE doubles).  Callback functions are opaque: they are modelled as numeric
identifiers, and an invocation of a callback is recorded as an event in an
observable trace.  `Math.random`-generated identifiers are modelled by a
deterministic fresh-name supply, and timers/wall-clock values are modelled
as trace events.
-/

namespace NatsEcho

/-- Abbreviation turning a Lean string literal into the `List Char` model of
a JavaScript string. -/
def str (s : String) : List Char := s.toList

/-! ## JavaScript string primitives used by the source -/

/-- The whitespace characters recognised by `String.prototype.trim` that can
occur in the ASCII inputs of this development. -/
def wsJS (c : Char) : Bool :=
  c = ' ' || c = '\t' || c = '\n' || c = '\r' || c = '\x0b' || c = '\x0c'

/-- `s.trim()`: strip leading and trailing whitespace. -/
def jsTrim (s : List Char) : List Char :=
  ((s.dropWhile wsJS).reverse.dropWhile wsJS).reverse

/-- `s.replace('\r', '')`: remove the first carriage return, if any
(JavaScript `replace` with a string pattern replaces only the first
occurrence). -/
def removeFirstCR : List Char → List Char
  | [] => []
  | c :: cs => if c = '\r' then cs else c :: removeFirstCR cs

/-- `s.split(sep)` for a single-character separator. -/
def splitOnChar (sep : Char) : List Char → List (List Char)
  | [] => [[]]
  | c :: cs =>
    match splitOnChar sep cs with
    | [] => [[]]
    | l :: ls => if c = sep then [] :: l :: ls else (c :: l) :: ls

/-- `parts.join(sep)` for a single-character separator; inverse of
`splitOnChar`. -/
def joinSep (sep : Char) : List (List Char) → List Char
  | [] => []
  | [l] => l
  | l :: ls => l ++ sep :: joinSep sep ls

/-- `s.startsWith(p)`. -/
def startsWith (p s : List Char) : Bool := p.isPrefixOf s

/-- Value of a decimal digit list. -/
def digitsVal (ds : List Char) : Nat :=
  ds.foldl (fun acc c => acc * 10 + (c.toNat - '0'.toNat)) 0

/-- `parseInt(s, 10)`: skip leading whitespace, read an optional sign, then
a maximal run of decimal digits; `none` models `NaN` (no digits found).
Leading digits followed by junk parse successfully, as in JavaScript. -/
def parseIntJS (s : List Char) : Option Int :=
  let s1 := s.dropWhile wsJS
  let core : List Char → Option Nat := fun t =>
    let ds := t.takeWhile (fun c => c.isDigit)
    if ds = [] then none else some (digitsVal ds)
  match s1 with
  | '-' :: rest => (core rest).map (fun n => -(n : Int))
  | '+' :: rest => (core rest).map (fun n => (n : Int))
  | _ => (core s1).map (fun n => (n : Int))

/-- `s.substring(0, n)` for an integer `n` (negative arguments clamp to 0,
as in JavaScript). -/
def substrTo (n : Int) (s : List Char) : List Char := s.take n.toNat

/-- `s.substring(n)` for an integer `n` (negative arguments clamp to 0). -/
def substrFrom (n : Int) (s : List Char) : List Char := s.drop n.toNat

/-! ## Association lists

The source keeps `Map<string, …>` objects and plain-object listener tables;
both preserve insertion order, modelled as association lists with unique
keys where new keys are appended at the end. -/

/-- Lookup in an insertion-ordered association list. -/
def lookupA {β : Type} (l : List (List Char × β)) (k : List Char) : Option β :=
  match l with
  | [] => none
  | (k', v) :: rest => if k' = k then some v else lookupA rest k

/-- `map.set(k, v)` / property assignment: overwrite in place if the key is
present, append otherwise. -/
def insertA {β : Type} (l : List (List Char × β)) (k : List Char) (v : β) :
    List (List Char × β) :=
  match l with
  | [] => [(k, v)]
  | (k', v') :: rest =>
    if k' = k then (k', v) :: rest else (k', v') :: insertA rest k v

/-- `delete obj[k]` / `map.delete(k)`. -/
def eraseA {β : Type} (l : List (List Char × β)) (k : List Char) :
    List (List Char × β) :=
  match l with
  | [] => []
  | (k', v') :: rest => if k' = k then rest else (k', v') :: eraseA rest k

end NatsEcho

namespace NatsEventFormatter

open NatsEcho

/-- `NatsEventFormatter.format` (src/unnamed/part_000, lines 12–20): return
the event unchanged when it is already namespaced, otherwise prepend
`namespace ++ '\\'`. -/
def format (ns event : List Char) : List Char :=
  if startsWith ns event then event else ns ++ '\\' :: event

end NatsEventFormatter

namespace NatsEcho

/-! ## JSON values

Models the host `JSON.parse` on the integer/string/object subset exchanged
by this protocol (no floats or exponents occur in the modelled traffic).
The modelled inputs carry no duplicate object keys. -/

inductive JVal where
  | jnull
  | jbool (b : Bool)
  | jnum (n : Int)
  | jstr (s : List Char)
  | jarr (xs : List JVal)
  | jobj (fields : List (List Char × JVal))
  deriving Repr, Inhabited

/-- Translate a JSON string escape character. -/
def unescape (c : Char) : Char :=
  if c = 'n' then '\n' else if c = 't' then '\t' else if c = 'r' then '\r' else c

/-- Parse the body of a JSON string after its opening quote; returns the
content and the remainder after the closing quote. -/
def parseStrBody : List Char → Option (List Char × List Char)
  | [] => none
  | '"' :: cs => some ([], cs)
  | '\\' :: e :: cs =>
    (parseStrBody cs).map (fun r => (unescape e :: r.1, r.2))
  | '\\' :: [] => none
  | c :: cs => (parseStrBody cs).map (fun r => (c :: r.1, r.2))

/-- Skip JSON whitespace. -/
def skipWS (s : List Char) : List Char := s.dropWhile wsJS

/-- Parse an integer JSON number token. -/
def parseNumTok (s : List Char) : Option (JVal × List Char) :=
  match s with
  | '-' :: rest =>
    let ds := rest.takeWhile Char.isDigit
    if ds = [] then none
    else some (JVal.jnum (-(digitsVal ds : Int)), rest.drop ds.length)
  | _ =>
    let ds := s.takeWhile Char.isDigit
    if ds = [] then none
    else some (JVal.jnum (digitsVal ds), s.drop ds.length)

mutual

/-- Parse one JSON value (fuel-indexed recursive descent). -/
def parseVal : Nat → List Char → Option (JVal × List Char)
  | 0, _ => none
  | fuel+1, s =>
    match skipWS s with
    | [] => none
    | c :: cs =>
      if c = '"' then (parseStrBody cs).map (fun r => (JVal.jstr r.1, r.2))
      else if c = '\x7b' then
        match skipWS cs with
        | '\x7d' :: rest => some (JVal.jobj [], rest)
        | _ => (parseFields fuel cs).map (fun r => (JVal.jobj r.1, r.2))
      else if c = '[' then
        match skipWS cs with
        | ']' :: rest => some (JVal.jarr [], rest)
        | _ => (parseElems fuel cs).map (fun r => (JVal.jarr r.1, r.2))
      else if c = 't' then
        if startsWith (str "rue") cs then some (JVal.jbool true, cs.drop 3) else none
      else if c = 'f' then
        if startsWith (str "alse") cs then some (JVal.jbool false, cs.drop 4) else none
      else if c = 'n' then
        if startsWith (str "ull") cs then some (JVal.jnull, cs.drop 3) else none
      else parseNumTok (c :: cs)

/-- Parse the fields of a JSON object after its opening brace. -/
def parseFields : Nat → List Char → Option (List (List Char × JVal) × List Char)
  | 0, _ => none
  | fuel+1, s =>
    match skipWS s with
    | '"' :: cs =>
      match parseStrBody cs with
      | some (key, rest) =>
        match skipWS rest with
        | ':' :: rest2 =>
          match parseVal fuel rest2 with
          | some (v, rest3) =>
            match skipWS rest3 with
            | ',' :: rest4 => (parseFields fuel rest4).map (fun r => ((key, v) :: r.1, r.2))
            | '\x7d' :: rest4 => some ([(key, v)], rest4)
            | _ => none
          | none => none
        | _ => none
      | none => none
    | _ => none

/-- Parse the elements of a JSON array after its opening bracket. -/
def parseElems : Nat → List Char → Option (List JVal × List Char)
  | 0, _ => none
  | fuel+1, s =>
    match parseVal fuel s with
    | some (v, rest) =>
      match skipWS rest with
      | ',' :: rest2 => (parseElems fuel rest2).map (fun r => (v :: r.1, r.2))
      | ']' :: rest2 => some ([v], rest2)
      | _ => none
    | none => none

end

/-- `JSON.parse`: parse a whole value, tolerating trailing whitespace;
`none` models a thrown `SyntaxError`. -/
def jsonParse (s : List Char) : Option JVal :=
  match parseVal (s.length + 1) s with
  | some (v, rest) => if skipWS rest = [] then some v else none
  | none => none

/-- JavaScript truthiness of a JSON value. -/
def jsTruthy : JVal → Bool
  | JVal.jnull => false
  | JVal.jbool b => b
  | JVal.jnum n => n ≠ 0
  | JVal.jstr s => s ≠ []
  | JVal.jarr _ => true
  | JVal.jobj _ => true

/-- Property access `v.k`: `none` models `undefined` (non-objects have no
data properties of interest here). -/
def jGet : JVal → List Char → Option JVal
  | JVal.jobj fields, k => lookupA fields k
  | _, _ => none

/-- `v.k || dflt`: the field when present and truthy, otherwise the
default. -/
def jsOrField (v : Option JVal) (dflt : JVal) : JVal :=
  match v with
  | some x => if jsTruthy x then x else dflt
  | none => dflt

/-- Truthiness of an optional-string configuration entry (`undefined` and
the empty string are falsy). -/
def optStrTruthy : Option (List Char) → Bool
  | some s => s ≠ []
  | none => false

/-! ## Observable events

Writes to the transport, callback invocations, logging and timer/promise
actions are modelled as a trace of events. -/

/-- The structured content of the `CONNECT` handshake built by
`handleTextInfoMessage` (src/unnamed/part_001, lines 407–441); the constant
fields `lang`/`version`/`protocol`/`pedantic`/`echo`/`tls_required`/`name`
are fixed by the source and omitted.  Credential fields are `none` exactly
when the source's "remove undefined values" pass would drop them. -/
structure ConnectOut where
  verbose : Bool
  headersFlag : Bool
  user : Option (List Char)
  pass : Option (List Char)
  authToken : Option (List Char)
  deriving Repr, DecidableEq, Inhabited

/-- Observable actions of the connector. -/
inductive Ev where
  /-- `handleCompleteMessage` was invoked on a completed payload. -/
  | deliver (payload : List Char)
  /-- Raw bytes written to the WebSocket. -/
  | send (cmd : List Char)
  /-- The `CONNECT` handshake written to the WebSocket. -/
  | sendConnect (info : ConnectOut)
  /-- A channel listener callback invoked with `(data)`. -/
  | chanTrigger (chan event : List Char) (cb : Nat) (data : JVal)
  /-- A channel wildcard listener invoked with `(event, data)`. -/
  | chanTriggerWild (chan event : List Char) (cb : Nat) (data : JVal)
  /-- A connector-level `on(event, …)` handler invoked. -/
  | connTrigger (event : List Char) (handler : Nat)
  /-- `console.error` output. -/
  | logError (tag : List Char)
  /-- The keepalive interval (re)started. -/
  | startPing
  /-- The pending connect promise resolved. -/
  | resolveConnect
  /-- The pending connect promise rejected. -/
  | rejectConnect
  /-- `ws.close()` called. -/
  | closeSocket
  /-- A thrown `TypeError` (formatting a non-string event name). -/
  | jsTypeError
  deriving Repr, Inhabited

/-- Recognise callback-invocation events of channel listeners. -/
def isChanTriggerEv : Ev → Bool
  | Ev.chanTrigger _ _ _ _ => true
  | Ev.chanTriggerWild _ _ _ _ => true
  | _ => false

/-- Recognise logging events. -/
def isLogEv : Ev → Bool
  | Ev.logError _ => true
  | _ => false

/-- The data-delivery payloads of a trace, in order. -/
def deliveries (evs : List Ev) : List (List Char) :=
  evs.filterMap (fun e => match e with | Ev.deliver p => some p | _ => none)

/-! ## Outgoing protocol commands (`NatsConnector.sendToNats`,
src/unnamed/part_001, lines 556–597) -/

/-- CRLF terminator. -/
def CRLF : List Char := ['\r', '\n']

/-- Decimal notation of a natural number. -/
def natDigits (n : Nat) : List Char := (Nat.repr n).toList

/-- The `op` objects passed to `sendToNats`. -/
inductive NatsOut where
  | pub (subject payload : List Char)
  | sub (subject : List Char) (queue : Option (List Char)) (sid : List Char)
  | unsub (sid : List Char) (maxMsgs : Option (List Char))
  | ping
  | pong
  deriving Repr, DecidableEq, Inhabited

/-- The command string `sendToNats` builds for each op (the payload byte
count uses the UTF-8 byte length, which equals the character count on the
ASCII inputs modelled here). -/
def sendToNatsCmd : NatsOut → List Char
  | NatsOut.pub subject payload =>
    str "PUB " ++ subject ++ ' ' :: natDigits payload.length ++ CRLF ++ payload ++ CRLF
  | NatsOut.sub subject queue sid =>
    match queue with
    | some q => str "SUB " ++ subject ++ ' ' :: q ++ ' ' :: sid ++ CRLF
    | none => str "SUB " ++ subject ++ ' ' :: sid ++ CRLF
  | NatsOut.unsub sid maxMsgs =>
    jsTrim (str "UNSUB " ++ sid ++ ' ' :: maxMsgs.getD [] ++ CRLF) ++ CRLF
  | NatsOut.ping => str "PING" ++ CRLF
  | NatsOut.pong => str "PONG" ++ CRLF

/-! ## Channels (src/unnamed/part_002 and src/src/presence-channel.ts) -/

/-- The four channel classes. -/
inductive ChannelKind where
  | plain
  | priv
  | encrypted
  | presence
  deriving Repr, DecidableEq, Inhabited

/-- State of one channel object: its full (post-prefix) name, the listener
table (event name, insertion-ordered, each with an ordered callback list)
and the subscribed flag.  Presence membership state is not needed by the
claims settled here. -/
structure ChannelSt where
  kind : ChannelKind
  name : List Char
  listeners : List (List Char × List Nat)
  subscribed : Bool
  deriving Repr, DecidableEq, Inhabited

/-- The connector state a channel operation reads: `isConnected()` is
`connected && ws.readyState === OPEN`, and `subscribeChannel` /
`unsubscribeChannel` consult the subscription map. -/
structure ConnSnap where
  connected : Bool
  wsOpen : Bool
  subscriptions : List (List Char × List Char)
  deriving Repr, DecidableEq, Inhabited

/-- `sendRawToNats` / `sendToNats` gate: write only when the socket is
open, otherwise log. -/
def sendGate (cs : ConnSnap) (evs : List Ev) : List Ev :=
  if cs.wsOpen then evs else [Ev.logError (str "NATS Echo: Cannot send, connection not open")]

/-- `NatsConnector.sendSubscribe` (lines 657–672): look up the subscription
entry and send `SUB`. -/
def sendSubscribe (cs : ConnSnap) (channelName : List Char) : List Ev :=
  match lookupA cs.subscriptions channelName with
  | none => [Ev.logError (str "No subscription found for channel")]
  | some sid => sendGate cs [Ev.send (sendToNatsCmd (NatsOut.sub channelName none sid))]

/-- Errors that can reject a channel subscribe. -/
inductive SubErr where
  /-- `subscribeChannel` threw: no subscription entry for the channel. -/
  | noSubscription
  /-- The authorization endpoint call failed with the given error. -/
  | authFailed (code : Nat)
  deriving Repr, DecidableEq, Inhabited

/-- `NatsConnector.subscribeChannel` (lines 857–869): throws when the
channel has no subscription entry; sends `SUB` only when connected. -/
def subscribeChannelConn (cs : ConnSnap) (channelName : List Char) :
    Except SubErr Unit × List Ev :=
  match lookupA cs.subscriptions channelName with
  | none => (Except.error SubErr.noSubscription, [])
  | some _ =>
    if cs.connected && cs.wsOpen then (Except.ok (), sendSubscribe cs channelName)
    else (Except.ok (), [])

/-- `NatsConnector.unsubscribeChannel` (lines 872–883): send `UNSUB` only
when a subscription entry exists and the connector is connected. -/
def unsubscribeChannelConn (cs : ConnSnap) (channelName : List Char) : List Ev :=
  match lookupA cs.subscriptions channelName with
  | none => []
  | some sid =>
    if cs.connected && cs.wsOpen then
      sendGate cs [Ev.send (sendToNatsCmd (NatsOut.unsub sid none))]
    else []

/-- `BaseChannel.trigger` (src/unnamed/part_002, lines 125–146): invoke the
callbacks registered for the event, then the wildcard callbacks; a throwing
callback is caught and logged, so every invocation is recorded. -/
def triggerCh (ch : ChannelSt) (event : List Char) (data : JVal) : List Ev :=
  ((lookupA ch.listeners event).getD []).map (fun cb => Ev.chanTrigger ch.name event cb data)
    ++ ((lookupA ch.listeners (str "*")).getD []).map
      (fun cb => Ev.chanTriggerWild ch.name event cb data)

/-- Register a callback under an event (`listeners[event].push(callback)`,
creating the entry if absent). -/
def addListener (ch : ChannelSt) (event : List Char) (cb : Nat) : ChannelSt :=
  { ch with listeners :=
      insertA ch.listeners event ((lookupA ch.listeners event).getD [] ++ [cb]) }

/-- `BaseChannel.subscribe` (lines 20–35): no-op when already subscribed;
otherwise delegate to the connector, set the flag on success, log and
rethrow on failure. -/
def subscribeBase (cs : ConnSnap) (ch : ChannelSt) :
    ChannelSt × Except SubErr Unit × List Ev :=
  if ch.subscribed then (ch, Except.ok (), [])
  else
    match subscribeChannelConn cs ch.name with
    | (Except.ok _, evs) => ({ ch with subscribed := true }, Except.ok (), evs)
    | (Except.error e, evs) =>
      (ch, Except.error e, evs ++ [Ev.logError (str "Failed to subscribe to channel")])

/-- `NatsConnector.authenticatePrivateChannel` (lines 674–686): the HTTP
round-trip's outcome is an input of the model; on failure the method logs
and rethrows. -/
def authenticatePrivateChannel (auth : Except Nat JVal) : Except SubErr JVal × List Ev :=
  match auth with
  | Except.ok resp => (Except.ok resp, [])
  | Except.error code =>
    (Except.error (SubErr.authFailed code),
     [Ev.logError (str "NATS Echo: Authentication failed for")])

/-- `PrivateChannel.subscribe` (lines 158–167): authenticate first, then
`super.subscribe()`; any failure in either step is logged and rethrown. -/
def subscribePrivate (cs : ConnSnap) (auth : Except Nat JVal) (ch : ChannelSt) :
    ChannelSt × Except SubErr Unit × List Ev :=
  match authenticatePrivateChannel auth with
  | (Except.error e, evs) =>
    (ch, Except.error e, evs ++ [Ev.logError (str "Authentication failed for private channel")])
  | (Except.ok _, evs) =>
    let r := subscribeBase cs ch
    match r.2.1 with
    | Except.ok _ => (r.1, Except.ok (), evs ++ r.2.2)
    | Except.error e =>
      (r.1, Except.error e,
       evs ++ r.2.2 ++ [Ev.logError (str "Authentication failed for private channel")])

/-- Identifiers of the internal callbacks `PresenceChannel.subscribe`
registers for the three reserved presence events. -/
def presenceHereCb : Nat := 1000001

/-- Internal `presence:joining` callback id. -/
def presenceJoiningCb : Nat := 1000002

/-- Internal `presence:leaving` callback id. -/
def presenceLeavingCb : Nat := 1000003

/-- The three `listen` calls at the end of `PresenceChannel.subscribe`
(src/src/presence-channel.ts, lines 21–35).  They run with `subscribed`
already true, so `listen`'s auto-subscribe guard is statically false and
each call reduces to a listener-table insertion. -/
def addPresenceInternalListeners (ch : ChannelSt) : ChannelSt :=
  addListener
    (addListener (addListener ch (str "presence:here") presenceHereCb)
      (str "presence:joining") presenceJoiningCb)
    (str "presence:leaving") presenceLeavingCb

/-- `PresenceChannel.subscribe` (src/src/presence-channel.ts, lines 14–38):
no-op when already subscribed; otherwise the private subscribe followed by
registration of the presence event listeners. -/
def subscribePresence (cs : ConnSnap) (auth : Except Nat JVal) (ch : ChannelSt) :
    ChannelSt × Except SubErr Unit × List Ev :=
  if ch.subscribed then (ch, Except.ok (), [])
  else
    match subscribePrivate cs auth ch with
    | (ch1, Except.ok _, evs) => (addPresenceInternalListeners ch1, Except.ok (), evs)
    | (ch1, Except.error e, evs) => (ch1, Except.error e, evs)

/-- Virtual dispatch of `subscribe()` over the four channel classes. -/
def subscribeCh (cs : ConnSnap) (auth : Except Nat JVal) (ch : ChannelSt) :
    ChannelSt × Except SubErr Unit × List Ev :=
  match ch.kind with
  | ChannelKind.plain => subscribeBase cs ch
  | ChannelKind.priv => subscribePrivate cs auth ch
  | ChannelKind.encrypted => subscribePrivate cs auth ch
  | ChannelKind.presence => subscribePresence cs auth ch

/-- Virtual dispatch of `unsubscribe()`: `BaseChannel.unsubscribe`
(lines 37–52) is a no-op when not subscribed, otherwise notifies the
connector, clears the flag and the listener table;
`PresenceChannel.unsubscribe` (src/src/presence-channel.ts, lines 40–43)
only clears the flag. -/
def unsubscribeCh (cs : ConnSnap) (ch : ChannelSt) : ChannelSt × List Ev :=
  match ch.kind with
  | ChannelKind.presence => ({ ch with subscribed := false }, [])
  | _ =>
    if ch.subscribed then
      ({ ch with subscribed := false, listeners := [] }, unsubscribeChannelConn cs ch.name)
    else (ch, [])

/-- `BaseChannel.listen` (lines 54–67): register the callback; when this
creates the channel's first listener entry and the channel is not
subscribed, fire an asynchronous subscribe whose rejection is caught and
logged (`.catch(console.error)`). -/
def listenCh (cs : ConnSnap) (auth : Except Nat JVal) (ch : ChannelSt)
    (event : List Char) (cb : Nat) : ChannelSt × List Ev :=
  let ch1 := addListener ch event cb
  if !ch1.subscribed && ch1.listeners.length = 1 then
    let r := subscribeCh cs auth ch1
    match r.2.1 with
    | Except.ok _ => (r.1, r.2.2)
    | Except.error _ => (r.1, r.2.2 ++ [Ev.logError (str "listen: subscribe rejected")])
  else (ch1, [])

/-- Remove the first occurrence of a callback
(`indexOf` + `splice(index, 1)`). -/
def removeFirstCb (l : List Nat) (x : Nat) : List Nat :=
  match l with
  | [] => []
  | y :: ys => if y = x then ys else y :: removeFirstCb ys x

/-- `BaseChannel.stopListening` (lines 80–107): with no event, clear all
listeners and unsubscribe; with an event only, delete that entry; with
both, remove that one callback; unsubscribe when no listener keys
remain. -/
def stopListeningCh (cs : ConnSnap) (ch : ChannelSt)
    (eventOpt : Option (List Char)) (cbOpt : Option Nat) : ChannelSt × List Ev :=
  match eventOpt with
  | none => unsubscribeCh cs { ch with listeners := [] }
  | some ev =>
    match lookupA ch.listeners ev with
    | none => (ch, [])
    | some cbs =>
      let ch1 :=
        match cbOpt with
        | some cb => { ch with listeners := insertA ch.listeners ev (removeFirstCb cbs cb) }
        | none => { ch with listeners := eraseA ch.listeners ev }
      if ch1.listeners.length = 0 then unsubscribeCh cs ch1 else (ch1, [])

/-! ## Connector state (`NatsConnector`, src/unnamed/part_001) -/

/-- The configuration fields consulted by the modelled code paths, with the
defaults installed by `normalizeOptions` (lines 71–112).  The reconnect
delay is modelled over `ℚ`: the doubles the source computes from these
values are exact. -/
structure NatsOptions where
  nsOpt : List Char
  reconnectDelayOpt : ℚ
  maxReconnectAttempts : Nat
  userOpt : Option (List Char)
  passOpt : Option (List Char)
  tokenOpt : Option (List Char)
  debug : Bool
  deriving Repr, DecidableEq, Inhabited

/-- The defaults of `normalizeOptions`. -/
def defaultOptions : NatsOptions where
  nsOpt := str "App\\Events"
  reconnectDelayOpt := 3000
  maxReconnectAttempts := 10
  userOpt := none
  passOpt := none
  tokenOpt := none
  debug := false

/-- The mutable fields of a `NatsConnector` touched by the modelled code
paths.  `wsOpen` models `ws.readyState === WebSocket.OPEN`.  The promise
fields model the ad hoc `_resolve`/`_reject` mechanism: `connect()` creates
a plain `Promise` and stashes nothing on it, so `promiseStashedResolve` /
`promiseStashedReject` record whether those properties exist, and
`promiseResolved` whether the optional call `promise._resolve?.()` ever
fired.  `Math.random`-based identifiers are modelled by `freshCounter`. -/
structure ConnectorSt where
  options : NatsOptions
  channels : List (List Char × ChannelSt)
  subscriptions : List (List Char × List Char)
  eventHandlers : List (List Char × List Nat)
  reconnectAttempts : Nat
  socketIdentifier : List Char
  isConnecting : Bool
  connected : Bool
  wsOpen : Bool
  serverInfo : Option JVal
  partialMessage : List Char
  pendingData : List Char
  bytesExpected : Int
  pingActive : Bool
  promiseStashedResolve : Bool
  promiseStashedReject : Bool
  promiseResolved : Bool
  freshCounter : Nat
  deriving Inhabited

/-- The snapshot of connector state the channel operations read. -/
def connSnapshot (s : ConnectorSt) : ConnSnap where
  connected := s.connected
  wsOpen := s.wsOpen
  subscriptions := s.subscriptions

/-- A freshly constructed connector (constructor, lines 63–69), before
`connect()` is called. -/
def initConnector (opts : NatsOptions) : ConnectorSt where
  options := opts
  channels := []
  subscriptions := []
  eventHandlers := []
  reconnectAttempts := 0
  socketIdentifier := str "nats_socketid"
  isConnecting := false
  connected := false
  wsOpen := false
  serverInfo := none
  partialMessage := []
  pendingData := []
  bytesExpected := 0
  pingActive := false
  promiseStashedResolve := false
  promiseStashedReject := false
  promiseResolved := false
  freshCounter := 1

/-- `NatsConnector.trigger` (lines 844–854): invoke every `on` handler for
the event; throwing handlers are caught and logged, so each invocation is
recorded. -/
def connTriggerEvs (s : ConnectorSt) (event : List Char) : List Ev :=
  ((lookupA s.eventHandlers event).getD []).map (Ev.connTrigger event)

/-- `NatsConnector.resubscribeAll` (lines 645–655): iterate the channel map
in creation order and send a subscribe for each channel reporting itself
subscribed. -/
def resubscribeAll (s : ConnectorSt) : List Ev :=
  s.channels.foldr
    (fun p acc => (if p.2.subscribed then sendSubscribe (connSnapshot s) p.1 else []) ++ acc) []

/-- `NatsConnector.handleOkMessage` (lines 491–515): mark connected, reset
the reconnect counter, start the keepalive interval, resubscribe all
channels, emit `connect`/`connected`, then attempt
`promise._resolve?.()` — which fires only if a `_resolve` property was
stashed on the promise. -/
def handleOkMessage (s : ConnectorSt) : ConnectorSt × List Ev :=
  let s1 := { s with isConnecting := false, connected := true,
                     reconnectAttempts := 0, pingActive := true }
  let evs := Ev.startPing :: resubscribeAll s1
      ++ connTriggerEvs s1 (str "connect") ++ connTriggerEvs s1 (str "connected")
  if s1.promiseStashedResolve then
    ({ s1 with promiseResolved := true }, evs ++ [Ev.resolveConnect])
  else (s1, evs)

/-- `NatsConnector.handleTextInfoMessage` (lines 395–451): parse the JSON
after `INFO `, store it, build the `CONNECT` message — credentials only
when the server requires authentication and the option is truthy — and send
it.  `JSON.stringify` is modelled by the structured `ConnectOut` event. -/
def handleTextInfoMessage (s : ConnectorSt) (infoLine : List Char) : ConnectorSt × List Ev :=
  let jsonStr := infoLine.drop 5
  match jsonParse jsonStr with
  | none => (s, [Ev.logError (str "Failed to handle INFO message")])
  | some info =>
    let s1 := { s with serverInfo := some info }
    let authRequired :=
      match jGet info (str "auth_required") with
      | some v => jsTruthy v
      | none => false
    let out : ConnectOut :=
      { verbose := s.options.debug
        headersFlag :=
          match jGet info (str "headers") with
          | some v => jsTruthy v
          | none => false
        user := if authRequired && optStrTruthy s.options.userOpt then s.options.userOpt else none
        pass := if authRequired && optStrTruthy s.options.passOpt then s.options.passOpt else none
        authToken :=
          if authRequired && optStrTruthy s.options.tokenOpt then s.options.tokenOpt else none }
    (s1, sendGate (connSnapshot s1) [Ev.sendConnect out])

/-- `NatsConnector.handleTextErrorMessage` (lines 453–480): extract the
message, log, emit `error`; while a connect is in flight, abort it and
close the socket (`promise._reject?.()` fires only if a `_reject` property
was stashed). -/
def handleTextErrorMessage (s : ConnectorSt) (errLine : List Char) : ConnectorSt × List Ev :=
  let errorMessage :=
    if startsWith (str "-ERR '") errLine && errLine.getLast? = some '\'' then
      (errLine.drop 6).dropLast
    else if startsWith (str "-ERR ") errLine then errLine.drop 5
    else str "Unknown error"
  let evs := Ev.logError (str "NATS error: " ++ errorMessage) :: connTriggerEvs s (str "error")
  if s.isConnecting then
    let s1 := { s with isConnecting := false, connected := false, wsOpen := false }
    if s1.promiseStashedReject then
      ({ s1 with promiseResolved := false }, evs ++ [Ev.closeSocket, Ev.rejectConnect])
    else (s1, evs ++ [Ev.closeSocket])
  else (s, evs)

/-- `NatsConnector.handlePing` (lines 482–489): reply `PONG`. -/
def handlePingMsg (s : ConnectorSt) : List Ev :=
  sendGate (connSnapshot s) [Ev.send (sendToNatsCmd NatsOut.pong)]

/-- One non-`MSG`, non-blank protocol line of `processNatsMessage`'s line
loop (lines 298–319), in source order; an unrecognised leading token is
only logged in debug mode and otherwise dropped. -/
def dispatchControlLine (s : ConnectorSt) (line : List Char) : ConnectorSt × List Ev :=
  if startsWith (str "INFO ") line then handleTextInfoMessage s line
  else if startsWith (str "+OK") line then handleOkMessage s
  else if startsWith (str "-ERR ") line then handleTextErrorMessage s line
  else if startsWith (str "PING") line then (s, handlePingMsg s)
  else if startsWith (str "PONG") line then (s, [])
  else (s, [])

/-- The Laravel broadcast event `handleCompleteMessage` constructs
(lines 378–384); the wall-clock `timestamp` field is not modelled. -/
structure BroadcastEvent where
  event : JVal
  data : JVal
  channel : List Char
  socket : List Char

/-- `NatsConnector.handleBroadcastEvent` (lines 623–643): format the event
name, fire the global `message` and `event:<name>` handler sets, then the
matching channel's listeners with the formatted and the original event
name.  `format` calls `startsWith` on the event name, so a non-string event
name throws a `TypeError` before any handler runs (the rejection of this
`async` method is unobserved). -/
def handleBroadcastEvent (s : ConnectorSt) (bev : BroadcastEvent) : List Ev :=
  match bev.event with
  | JVal.jstr evName =>
    let formattedEvent := NatsEventFormatter.format s.options.nsOpt evName
    connTriggerEvs s (str "message")
      ++ connTriggerEvs s (str "event:" ++ formattedEvent)
      ++ (match lookupA s.channels bev.channel with
          | some ch => triggerCh ch formattedEvent bev.data ++ triggerCh ch evName bev.data
          | none => [])
  | _ => [Ev.jsTypeError]

/-- `NatsConnector.handleCompleteMessage` (lines 367–393): parse the
payload as JSON (falling back to the raw string), extract `event` and
`data` with JavaScript truthiness defaults, hard-code the channel name
`"unknown"`, and dispatch. -/
def handleCompleteMessage (s : ConnectorSt) (data : List Char) : List Ev :=
  let parsedData := match jsonParse data with | some v => v | none => JVal.jstr data
  let bev : BroadcastEvent :=
    { event := jsOrField (jGet parsedData (str "event")) (JVal.jstr (str "NatsMessage"))
      data := jsOrField (jGet parsedData (str "data")) parsedData
      channel := str "unknown"
      socket := s.socketIdentifier }
  Ev.deliver data :: handleBroadcastEvent s bev

/-! ## The frame decoder
(`handleNatsMessage` / `processNatsMessage` / `handleMsgHeader`,
src/unnamed/part_001, lines 235–365) -/

/-- The line loop of `processNatsMessage` (lines 286–320): strip the first
`'\r'` of each line, skip blank lines, dispatch control lines in order, and
stop at the first `MSG` line, returning it together with the rejoined
remaining lines (`lines.slice(i + 1).join('\n')`).  The `MSG` test is
checked here before the control tokens; in the source it comes last in the
`else if` chain, but the six leading tokens are mutually exclusive, so the
order is immaterial. -/
def processLinesStep (s : ConnectorSt) :
    List (List Char) → ConnectorSt × List Ev × Option (List Char × List Char)
  | [] => (s, [], none)
  | l :: rest =>
    let line := removeFirstCR l
    if jsTrim line = [] then processLinesStep s rest
    else if startsWith (str "MSG ") line then (s, [], some (line, joinSep '\n' rest))
    else
      let r := dispatchControlLine s line
      let r2 := processLinesStep r.1 rest
      (r2.1, r.2 ++ r2.2.1, r2.2.2)

/-- Result of `handleMsgHeader`: the new state, the emitted events, and the
leftover data to be reprocessed through `processNatsMessage` (the
`if (extra.trim()) this.processNatsMessage(extra)` tail call, lines
361–363). -/
structure MsgHeaderOut where
  st : ConnectorSt
  evs : List Ev
  extra : Option (List Char)

/-- `NatsConnector.handleMsgHeader` (lines 323–365) without its tail call:
split the header on spaces; drop it if it has fewer than 4 fields; parse
the last field with `parseInt` and reset to byte count 0 if that yields
`NaN`; otherwise start collecting `remainingData` and complete immediately
when it already covers the declared count (`substring` clamps a negative
count to 0, exactly as in JavaScript). -/
def handleMsgHeaderCore (s : ConnectorSt) (headerLine remainingData : List Char) :
    MsgHeaderOut :=
  let parts := splitOnChar ' ' headerLine
  if parts.length < 4 then
    { st := s, evs := [Ev.logError (str "Invalid MSG header")], extra := none }
  else
    match parseIntJS (parts.getLastD []) with
    | none =>
      { st := { s with bytesExpected := 0 },
        evs := [Ev.logError (str "Invalid byte count in MSG")], extra := none }
    | some n =>
      let s1 := { s with bytesExpected := n, pendingData := remainingData }
      if n ≤ (remainingData.length : Int) then
        let data := substrTo n remainingData
        let extra := substrFrom n remainingData
        let s2 := { s1 with bytesExpected := 0, pendingData := [] }
        { st := s2, evs := handleCompleteMessage s2 data,
          extra := if jsTrim extra = [] then none else some extra }
      else { st := s1, evs := [], extra := none }

/-- `NatsConnector.processNatsMessage` (lines 263–321), recursion made
explicit with fuel (each recursive call processes a strictly shorter
string, so `length + 1` fuel always suffices; see
`processNatsFuel_congr`).  In payload mode, accumulate until the declared
byte count is covered, split off exactly that many characters, dispatch
them, and reprocess any non-blank surplus; in line mode, run the line loop
and then the `MSG` header handler. -/
def processNatsFuel : Nat → ConnectorSt → List Char → ConnectorSt × List Ev
  | 0, s, _ => (s, [])
  | fuel+1, s, messageStr =>
    if 0 < s.bytesExpected ∧ (s.pendingData.length : Int) < s.bytesExpected then
      let pd := s.pendingData ++ messageStr
      if s.bytesExpected ≤ (pd.length : Int) then
        let data := substrTo s.bytesExpected pd
        let remaining := substrFrom s.bytesExpected pd
        let s1 := { s with bytesExpected := 0, pendingData := [] }
        let evs := handleCompleteMessage s1 data
        if jsTrim remaining = [] then (s1, evs)
        else
          let r := processNatsFuel fuel s1 remaining
          (r.1, evs ++ r.2)
      else ({ s with pendingData := pd }, [])
    else
      let lr := processLinesStep s (splitOnChar '\n' messageStr)
      match lr.2.2 with
      | none => (lr.1, lr.2.1)
      | some hdr =>
        let mh := handleMsgHeaderCore lr.1 hdr.1 hdr.2
        match mh.extra with
        | none => (mh.st, lr.2.1 ++ mh.evs)
        | some extra =>
          let r := processNatsFuel fuel mh.st extra
          (r.1, lr.2.1 ++ mh.evs ++ r.2)

/-- `NatsConnector.processNatsMessage` at adequate fuel. -/
def processNatsMessage (s : ConnectorSt) (messageStr : List Char) : ConnectorSt × List Ev :=
  processNatsFuel (messageStr.length + 1) s messageStr

/-- `NatsConnector.handleNatsMessage` (lines 235–261): prepend the pending
partial message (which nothing in the source ever sets to a non-empty
string), clear it, and process. -/
def handleNatsMessage (s : ConnectorSt) (data : List Char) : ConnectorSt × List Ev :=
  let fullMessage := s.partialMessage ++ data
  processNatsMessage { s with partialMessage := [] } fullMessage

/-- Feed a sequence of transport chunks through `handleNatsMessage`,
collecting the trace. -/
def runChunks (s : ConnectorSt) (chunks : List (List Char)) : ConnectorSt × List Ev :=
  chunks.foldl
    (fun acc chunk =>
      let r := handleNatsMessage acc.1 chunk
      (r.1, acc.2 ++ r.2))
    (s, [])

/-! ## Reconnect scheduling and channel creation -/

/-- `NatsConnector.scheduleReconnect` (lines 599–621): increment the
attempt counter, compute `min(reconnectDelay · 1.5^(attempts−1), 30000)`
and emit `reconnecting`.  The delay is returned as the exact rational the
source's double arithmetic produces; the timer object itself (and its
readyState guard at fire time) is not modelled. -/
def scheduleReconnect (s : ConnectorSt) : ConnectorSt × ℚ × List Ev :=
  let attempts := s.reconnectAttempts + 1
  let delay := min (s.options.reconnectDelayOpt * (3 / 2 : ℚ) ^ (attempts - 1)) 30000
  ({ s with reconnectAttempts := attempts }, delay, connTriggerEvs s (str "reconnecting"))

/-- Client-generated subscription identifier (`'sid_' + Math.random()…`,
modelled by the deterministic fresh counter). -/
def freshSid (s : ConnectorSt) (pre : List Char) : List Char :=
  pre ++ natDigits s.freshCounter

/-- `NatsConnector.channel` (lines 696–710): return the existing channel,
or create a plain channel plus its subscription entry under the same
key. -/
def channelConn (s : ConnectorSt) (channelName : List Char) : ConnectorSt × ChannelSt :=
  match lookupA s.channels channelName with
  | some ch => (s, ch)
  | none =>
    let ch : ChannelSt :=
      { kind := ChannelKind.plain, name := channelName, listeners := [], subscribed := false }
    ({ s with channels := insertA s.channels channelName ch,
              subscriptions := insertA s.subscriptions channelName (freshSid s (str "sid_")),
              freshCounter := s.freshCounter + 1 }, ch)

/-- `NatsConnector.listen` (lines 690–694): `channel(name).listen(event,
cb)`, with the channel object's mutation written back to the channel
map. -/
def connListen (s : ConnectorSt) (auth : Except Nat JVal) (channelName event : List Char)
    (cb : Nat) : ConnectorSt × List Ev :=
  let r := channelConn s channelName
  let lr := listenCh (connSnapshot r.1) auth r.2 event cb
  ({ r.1 with channels := insertA r.1.channels channelName lr.1 }, lr.2)

/-! ## Decoder invariant and test fixtures -/

/-- Well-formedness of the decoder buffer between chunks: the expected byte
count is never negative, and while a payload is being awaited the
accumulated data is strictly below the declared count (so in particular
`bytes_accumulated ≤ bytes_expected`). -/
def DecoderInv (s : ConnectorSt) : Prop :=
  0 ≤ s.bytesExpected ∧
    (0 < s.bytesExpected → (s.pendingData.length : Int) < s.bytesExpected)

instance (s : ConnectorSt) : Decidable (DecoderInv s) := by
  unfold DecoderInv; infer_instance

/-- Recognise the connect-promise resolution event. -/
def isResolveEv : Ev → Bool
  | Ev.resolveConnect => true
  | _ => false

/-- End-to-end fixture: a connector on which
`channel("foo.bar").listen("E", cb)` (callback id 0) ran before
connecting, with the WebSocket now open and the connect in flight. -/
def c2Start : ConnectorSt :=
  { (connListen (initConnector defaultOptions) (Except.ok JVal.jnull)
      (str "foo.bar") (str "E") 0).1
    with wsOpen := true, isConnecting := true }

/-- End-to-end fixture: the server sends its greeting, the acknowledgement,
and one 23-byte data delivery for `foo.bar`. -/
def c2Chunks : List (List Char) :=
  [str "INFO \x7b\"auth_required\":false\x7d\r\n",
   str "+OK\r\n",
   str "MSG foo.bar sid_1 23\r\n\x7b\"event\":\"E\",\"data\":1\x7d\r\n"]

/-- Acknowledgement fixture: a connector awaiting `+OK` with one subscribed
channel `a`, one unsubscribed channel `b`, and a `connect` handler
(id 7).  As in the source, `connect()` stashed no `_resolve`/`_reject` on
the in-flight promise. -/
def c5Start : ConnectorSt :=
  { initConnector defaultOptions with
    channels :=
      [(str "a",
        { kind := ChannelKind.plain, name := str "a",
          listeners := [(str "E", [1])], subscribed := true }),
       (str "b",
        { kind := ChannelKind.plain, name := str "b",
          listeners := [], subscribed := false })]
    subscriptions := [(str "a", str "sid_a"), (str "b", str "sid_b")]
    eventHandlers := [(str "connect", [7])]
    wsOpen := true
    isConnecting := true
    reconnectAttempts := 3 }

/-- Run a sequence of `channel(name)` calls on a fresh connector. -/
def channelFold (opts : NatsOptions) (names : List (List Char)) : ConnectorSt :=
  names.foldl (fun s n => (channelConn s n).1) (initConnector opts)

/-! # Theorems

First a stock of lemmas about the string and association-list primitives
and about the decoder, then one theorem per specification claim. -/

theorem lookupA_insertA_self {β : Type} (l : List (List Char × β)) (k : List Char) (v : β) :
    lookupA (insertA l k v) k = some v := by
  induction l with
  | nil => simp [insertA, lookupA]
  | cons p rest ih =>
    by_cases h : p.1 = k <;> simp [insertA, lookupA, h, ih]

theorem lookupA_eq_none {β : Type} (l : List (List Char × β)) (k : List Char) :
    lookupA l k = none ↔ k ∉ l.map Prod.fst := by
  induction l with
  | nil => simp [lookupA]
  | cons p rest ih =>
    obtain ⟨k', v⟩ := p
    by_cases h : k' = k
    · subst h
      rw [lookupA, if_pos rfl]
      apply iff_of_false
      · exact fun hx => Option.noConfusion hx
      · exact fun hx => hx (by rw [List.map_cons]; exact List.mem_cons_self _ _)
    · rw [lookupA, if_neg h, ih]
      simp only [List.map_cons, List.mem_cons, not_or]
      constructor
      · exact fun hx => ⟨fun he => h he.symm, hx⟩
      · exact fun hx => hx.2

theorem map_fst_insertA {β : Type} (l : List (List Char × β)) (k : List Char) (v : β)
    (hk : k ∉ l.map Prod.fst) :
    (insertA l k v).map Prod.fst = l.map Prod.fst ++ [k] := by
  induction l with
  | nil => simp [insertA]
  | cons p rest ih =>
    simp only [List.map_cons, List.mem_cons] at hk
    push_neg at hk
    simp [insertA, Ne.symm hk.1, ih hk.2]

theorem splitOnChar_ne_nil (c : Char) (s : List Char) : splitOnChar c s ≠ [] := by
  induction s with
  | nil => simp [splitOnChar]
  | cons x xs ih =>
    cases h : splitOnChar c xs with
    | nil => exact absurd h ih
    | cons l ls =>
      simp only [splitOnChar, h]
      split <;> simp

theorem joinSep_cons_cons (c x : Char) (l : List Char) (ls : List (List Char)) :
    joinSep c ((x :: l) :: ls) = x :: joinSep c (l :: ls) := by
  cases ls <;> simp [joinSep]

theorem joinSep_splitOnChar (c : Char) (s : List Char) :
    joinSep c (splitOnChar c s) = s := by
  induction s with
  | nil => simp [splitOnChar, joinSep]
  | cons x xs ih =>
    cases h : splitOnChar c xs with
    | nil => exact absurd h (splitOnChar_ne_nil c xs)
    | cons l ls =>
      rw [h] at ih
      by_cases hx : x = c
      · simp only [splitOnChar, h, if_pos hx]
        cases ls <;> simp_all [joinSep]
      · simp only [splitOnChar, h, if_neg hx, joinSep_cons_cons, ih]

theorem mem_of_mem_splitOnChar {c : Char} {s l : List Char} {x : Char}
    (hl : l ∈ splitOnChar c s) (hx : x ∈ l) : x ∈ s := by
  induction s generalizing l with
  | nil =>
    simp [splitOnChar] at hl
    subst hl
    exact absurd hx (List.not_mem_nil x)
  | cons y ys ih =>
    cases h : splitOnChar c ys with
    | nil => exact absurd h (splitOnChar_ne_nil c ys)
    | cons t ts =>
      simp only [splitOnChar, h] at hl
      by_cases hy : y = c
      · rw [if_pos hy] at hl
        rcases List.mem_cons.1 hl with h1 | h2
        · subst h1; exact absurd hx (List.not_mem_nil x)
        · exact List.mem_cons_of_mem y (ih (h ▸ h2) hx)
      · rw [if_neg hy] at hl
        rcases List.mem_cons.1 hl with h1 | h2
        · subst h1
          rcases List.mem_cons.1 hx with h3 | h4
          · exact h3 ▸ List.mem_cons_self y ys
          · exact List.mem_cons_of_mem y (ih (h ▸ List.mem_cons_self t ts) h4)
        · exact List.mem_cons_of_mem y (ih (h ▸ List.mem_cons_of_mem t h2) hx)

theorem mem_of_mem_removeFirstCR {l : List Char} {x : Char}
    (hx : x ∈ removeFirstCR l) : x ∈ l := by
  induction l with
  | nil => simp [removeFirstCR] at hx
  | cons c cs ih =>
    rw [removeFirstCR] at hx
    by_cases h : c = '\r'
    · rw [if_pos h] at hx
      exact List.mem_cons_of_mem c hx
    · rw [if_neg h] at hx
      rcases List.mem_cons.1 hx with h1 | h2
      · exact h1 ▸ List.mem_cons_self c cs
      · exact List.mem_cons_of_mem c (ih h2)

theorem jsTrim_eq_nil_iff (l : List Char) :
    jsTrim l = [] ↔ ∀ x ∈ l, wsJS x := by
  constructor
  · intro h x hx
    unfold jsTrim at h
    rw [List.reverse_eq_nil_iff, List.dropWhile_eq_nil_iff] at h
    have hall : ∀ y ∈ l.dropWhile wsJS, wsJS y := by
      intro y hy
      exact h y (List.mem_reverse.2 hy)
    rcases (List.mem_append.1 ((List.takeWhile_append_dropWhile (p := wsJS) (l := l)) ▸ hx)) with
        h1 | h2
    · exact List.mem_takeWhile_imp h1
    · exact hall x h2
  · intro h
    unfold jsTrim
    have h1 : l.dropWhile wsJS = [] := List.dropWhile_eq_nil_iff.2 (fun x hx => h x hx)
    simp [h1]

theorem joinSep_length_lt (c : Char) (l : List Char) (ls : List (List Char))
    (hl : l ≠ []) : (joinSep c ls).length < (joinSep c (l :: ls)).length := by
  obtain ⟨x, l', rfl⟩ := List.exists_cons_of_ne_nil hl
  cases ls <;> simp [joinSep] <;> omega

theorem joinSep_length_le (c : Char) (l : List Char) (ls : List (List Char)) :
    (joinSep c ls).length ≤ (joinSep c (l :: ls)).length := by
  cases ls with
  | nil => simp [joinSep]
  | cons a as => simp [joinSep]; omega

theorem dispatchControlLine_decoder (s : ConnectorSt) (line : List Char) :
    (dispatchControlLine s line).1.bytesExpected = s.bytesExpected ∧
    (dispatchControlLine s line).1.pendingData = s.pendingData := by
  simp only [dispatchControlLine, handleTextInfoMessage, handleOkMessage,
    handleTextErrorMessage, handlePingMsg]
  repeat' split
  all_goals exact ⟨rfl, rfl⟩

theorem processLinesStep_decoder (ls : List (List Char)) (s : ConnectorSt) :
    (processLinesStep s ls).1.bytesExpected = s.bytesExpected ∧
    (processLinesStep s ls).1.pendingData = s.pendingData := by
  induction ls generalizing s with
  | nil => exact ⟨rfl, rfl⟩
  | cons l rest ih =>
    simp only [processLinesStep]
    by_cases h1 : jsTrim (removeFirstCR l) = []
    · rw [if_pos h1]; exact ih s
    · rw [if_neg h1]
      by_cases h2 : startsWith (str "MSG ") (removeFirstCR l)
      · rw [if_pos h2]; exact ⟨rfl, rfl⟩
      · rw [if_neg h2]
        have hd := dispatchControlLine_decoder s (removeFirstCR l)
        have hr := ih (dispatchControlLine s (removeFirstCR l)).1
        exact ⟨hr.1.trans hd.1, hr.2.trans hd.2⟩

theorem processLinesStep_all_ws (ls : List (List Char)) (s : ConnectorSt)
    (h : ∀ l ∈ ls, jsTrim (removeFirstCR l) = []) :
    processLinesStep s ls = (s, [], none) := by
  induction ls with
  | nil => rfl
  | cons l rest ih =>
    have hl := h l (List.mem_cons_self l rest)
    simp only [processLinesStep, hl, if_pos]
    exact ih (fun x hx => h x (List.mem_cons_of_mem l hx))

theorem processLinesStep_some_length (ls : List (List Char)) (s : ConnectorSt)
    (hdr rd : List Char)
    (h : (processLinesStep s ls).2.2 = some (hdr, rd)) :
    rd.length < (joinSep '\n' ls).length := by
  induction ls generalizing s with
  | nil => simp [processLinesStep] at h
  | cons l rest ih =>
    simp only [processLinesStep] at h
    by_cases h1 : jsTrim (removeFirstCR l) = []
    · rw [if_pos h1] at h
      exact lt_of_lt_of_le (ih s h) (joinSep_length_le '\n' l rest)
    · rw [if_neg h1] at h
      have hl : l ≠ [] := by
        intro hnil
        subst hnil
        exact h1 (by rw [jsTrim_eq_nil_iff]; intro x hx; simp [removeFirstCR] at hx)
      by_cases h2 : startsWith (str "MSG ") (removeFirstCR l)
      · rw [if_pos h2] at h
        simp only [Option.some.injEq, Prod.mk.injEq] at h
        rw [← h.2]
        exact joinSep_length_lt '\n' l rest hl
      · rw [if_neg h2] at h
        exact lt_of_lt_of_le
          (ih (dispatchControlLine s (removeFirstCR l)).1 h)
          (joinSep_length_le '\n' l rest)

theorem handleMsgHeaderCore_extra_length (s : ConnectorSt) (hdr rd extra : List Char)
    (h : (handleMsgHeaderCore s hdr rd).extra = some extra) :
    extra.length ≤ rd.length := by
  simp only [handleMsgHeaderCore] at h
  split at h
  · simp at h
  · split at h
    · simp at h
    · split at h
      · simp only at h
        split at h
        · simp at h
        · simp only [Option.some.injEq] at h
          subst h
          simp [substrFrom]
      · simp at h

theorem handleMsgHeaderCore_inv (s : ConnectorSt) (hdr rd : List Char)
    (hb : s.bytesExpected = 0) :
    DecoderInv (handleMsgHeaderCore s hdr rd).st := by
  simp only [handleMsgHeaderCore]
  split
  · refine ⟨?_, fun h => ?_⟩ <;> simp_all
  · split
    · refine ⟨?_, fun h => ?_⟩ <;> simp_all
    · split
      · refine ⟨?_, fun h => ?_⟩ <;> simp_all
      · rename_i n hsome hle
        refine ⟨?_, fun h => ?_⟩ <;> simp_all <;> omega

theorem processNatsFuel_ws (f : Nat) (s : ConnectorSt) (m : List Char)
    (hb : s.bytesExpected = 0) (hm : ∀ x ∈ m, wsJS x) :
    processNatsFuel (f + 1) s m = (s, []) := by
  have hlines : ∀ l ∈ splitOnChar '\n' m, jsTrim (removeFirstCR l) = [] := by
    intro l hl
    rw [jsTrim_eq_nil_iff]
    intro x hx
    exact hm x (mem_of_mem_splitOnChar hl (mem_of_mem_removeFirstCR hx))
  have hguard : ¬(0 < s.bytesExpected ∧ (s.pendingData.length : Int) < s.bytesExpected) := by
    rw [hb]; intro hc; exact absurd hc.1 (lt_irrefl 0)
  simp only [processNatsFuel]
  rw [if_neg hguard, processLinesStep_all_ws _ _ hlines]

theorem processNatsFuel_congr (f1 : Nat) :
    ∀ (f2 : Nat) (s : ConnectorSt) (m : List Char),
      m.length < f1 → m.length < f2 →
      processNatsFuel f1 s m = processNatsFuel f2 s m := by
  induction f1 with
  | zero => exact fun f2 s m h1 _ => absurd h1 (Nat.not_lt_zero _)
  | succ g1 ih =>
    intro f2 s m h1 h2
    cases f2 with
    | zero => exact absurd h2 (Nat.not_lt_zero _)
    | succ g2 =>
      simp only [processNatsFuel]
      by_cases hg : 0 < s.bytesExpected ∧ (s.pendingData.length : Int) < s.bytesExpected
      · rw [if_pos hg, if_pos hg]
        by_cases hc : s.bytesExpected ≤ ((s.pendingData ++ m).length : Int)
        · rw [if_pos hc, if_pos hc]
          by_cases ht : jsTrim (substrFrom s.bytesExpected (s.pendingData ++ m)) = []
          · rw [if_pos ht, if_pos ht]
          · rw [if_neg ht, if_neg ht]
            have hlen : (substrFrom s.bytesExpected (s.pendingData ++ m)).length < m.length := by
              have hc' := hc
              simp only [List.length_append] at hc'
              simp only [substrFrom, List.length_drop, List.length_append]
              omega
            rw [ih g2 _ _ (by omega) (by omega)]
        · rw [if_neg hc, if_neg hc]
      · rw [if_neg hg, if_neg hg]
        cases hsplit : (processLinesStep s (splitOnChar '\n' m)).2.2 with
        | none => rfl
        | some hdr =>
          dsimp only
          cases hextra :
              (handleMsgHeaderCore (processLinesStep s (splitOnChar '\n' m)).1
                hdr.1 hdr.2).extra with
          | none => rfl
          | some extra =>
            dsimp only
            have hrd : hdr.2.length < m.length := by
              have := processLinesStep_some_length (splitOnChar '\n' m) s hdr.1 hdr.2 hsplit
              rwa [joinSep_splitOnChar] at this
            have hex : extra.length ≤ hdr.2.length :=
              handleMsgHeaderCore_extra_length _ hdr.1 hdr.2 extra hextra
            rw [ih g2 _ _ (by omega) (by omega)]

theorem processNatsFuel_inv (f : Nat) :
    ∀ (s : ConnectorSt) (m : List Char),
      DecoderInv s → DecoderInv (processNatsFuel f s m).1 := by
  induction f with
  | zero => exact fun s m h => h
  | succ g ih =>
    intro s m hinv
    simp only [processNatsFuel]
    by_cases hg : 0 < s.bytesExpected ∧ (s.pendingData.length : Int) < s.bytesExpected
    · rw [if_pos hg]
      by_cases hc : s.bytesExpected ≤ ((s.pendingData ++ m).length : Int)
      · rw [if_pos hc]
        by_cases ht : jsTrim (substrFrom s.bytesExpected (s.pendingData ++ m)) = []
        · rw [if_pos ht]
          exact ⟨le_refl 0, fun h => absurd h (lt_irrefl 0)⟩
        · rw [if_neg ht]
          exact ih _ _ ⟨le_refl 0, fun h => absurd h (lt_irrefl 0)⟩
      · rw [if_neg hc]
        exact ⟨hinv.1, fun _ => lt_of_not_le hc⟩
    · rw [if_neg hg]
      have hfields := processLinesStep_decoder (splitOnChar '\n' m) s
      have hb0 : s.bytesExpected = 0 := by
        rcases hinv with ⟨h0, himp⟩
        by_cases hb : 0 < s.bytesExpected
        · exact absurd ⟨hb, himp hb⟩ hg
        · omega
      have hb1 : (processLinesStep s (splitOnChar '\n' m)).1.bytesExpected = 0 :=
        hfields.1.trans hb0
      cases hsplit : (processLinesStep s (splitOnChar '\n' m)).2.2 with
      | none =>
        dsimp only
        exact ⟨by rw [hb1], fun h => absurd (hb1 ▸ h) (lt_irrefl 0)⟩
      | some hdr =>
        dsimp only
        cases hextra :
            (handleMsgHeaderCore (processLinesStep s (splitOnChar '\n' m)).1
              hdr.1 hdr.2).extra with
        | none =>
          dsimp only
          exact handleMsgHeaderCore_inv _ hdr.1 hdr.2 hb1
        | some extra =>
          dsimp only
          exact ih _ _ (handleMsgHeaderCore_inv _ hdr.1 hdr.2 hb1)

theorem lookupA_some_mem {β : Type} (l : List (List Char × β)) (k : List Char) (v : β)
    (h : lookupA l k = some v) : k ∈ l.map Prod.fst := by
  by_contra hk
  rw [← lookupA_eq_none] at hk
  rw [h] at hk
  exact Option.noConfusion hk

theorem channelConn_aligned (s : ConnectorSt) (n : List Char)
    (h1 : s.channels.map Prod.fst = s.subscriptions.map Prod.fst)
    (h2 : (s.channels.map Prod.fst).Nodup) :
    ((channelConn s n).1.channels.map Prod.fst =
      (channelConn s n).1.subscriptions.map Prod.fst) ∧
    ((channelConn s n).1.channels.map Prod.fst).Nodup ∧
    (∀ x, x ∈ (channelConn s n).1.channels.map Prod.fst ↔
      x = n ∨ x ∈ s.channels.map Prod.fst) := by
  cases hl : lookupA s.channels n with
  | some ch =>
    simp only [channelConn, hl]
    refine ⟨h1, h2, fun x => ⟨fun hx => Or.inr hx, fun hx => ?_⟩⟩
    rcases hx with hx | hx
    · exact hx ▸ lookupA_some_mem s.channels n ch hl
    · exact hx
  | none =>
    have hn : n ∉ s.channels.map Prod.fst := (lookupA_eq_none s.channels n).1 hl
    have hn' : n ∉ s.subscriptions.map Prod.fst := h1 ▸ hn
    simp only [channelConn, hl]
    rw [map_fst_insertA s.channels n _ hn, map_fst_insertA s.subscriptions n _ hn', h1]
    refine ⟨rfl, ?_, fun x => ?_⟩
    · rw [← h1]
      exact List.Nodup.append h2 (List.nodup_singleton n)
        (List.disjoint_singleton.2 hn)
    · rw [← h1]
      simp [List.mem_append, or_comm]

theorem channelFold_aligned (names : List (List Char)) :
    ∀ s : ConnectorSt,
      s.channels.map Prod.fst = s.subscriptions.map Prod.fst →
      (s.channels.map Prod.fst).Nodup →
      (((names.foldl (fun s n => (channelConn s n).1) s).channels.map Prod.fst =
          (names.foldl (fun s n => (channelConn s n).1) s).subscriptions.map Prod.fst) ∧
       ((names.foldl (fun s n => (channelConn s n).1) s).channels.map Prod.fst).Nodup ∧
       (∀ x, x ∈ (names.foldl (fun s n => (channelConn s n).1) s).channels.map Prod.fst ↔
          x ∈ s.channels.map Prod.fst ∨ x ∈ names)) := by
  induction names with
  | nil =>
    intro s h1 h2
    exact ⟨h1, h2, fun x => by simp⟩
  | cons m ms ih =>
    intro s h1 h2
    have hstep := channelConn_aligned s m h1 h2
    have hrec := ih (channelConn s m).1 hstep.1 hstep.2.1
    refine ⟨hrec.1, hrec.2.1, fun x => ?_⟩
    rw [List.foldl_cons] at *
    rw [hrec.2.2 x]
    rw [hstep.2.2 x]
    simp [List.mem_cons]
    tauto

/-! ## Claim theorems -/

/-- C1: the specification claims the frame decoder is invariant under
arbitrary chunking of a valid byte stream.  The code violates this: the
stream `MSG a sid_1 2\r\nhi\r\n` delivers the payload `hi` when fed as one
chunk, but delivers nothing when split inside the header line as
`MSG a si` + `d_1 2\r\nhi\r\n` — the truncated header is parsed (and
dropped as invalid) immediately, because `partialMessage` is never set to
the unconsumed tail. -/
theorem c1_chunk_split_loses_message :
    deliveries (runChunks (initConnector defaultOptions)
        [str "MSG a sid_1 2\r\nhi\r\n"]).2 = [str "hi"] ∧
    deliveries (runChunks (initConnector defaultOptions)
        [str "MSG a si", str "d_1 2\r\nhi\r\n"]).2 = [] := by
  exact ⟨rfl, rfl⟩

/-- C2: the specification claims the end-to-end scenario
(`INFO`, `+OK`, `MSG foo.bar sid_1 23` + payload) invokes `cb(1)` exactly
once on the listener registered for `E`.  The code violates this: the
listener is registered and the payload is decoded and delivered, but
`handleCompleteMessage` hard-codes the channel name `"unknown"`, so no
channel listener is ever triggered — the trace contains no channel-callback
invocation at all. -/
theorem c2_decoded_payload_never_reaches_listener :
    (lookupA c2Start.channels (str "foo.bar")).map ChannelSt.listeners =
      some [(str "E", [0])] ∧
    deliveries (runChunks c2Start c2Chunks).2 =
      [str "\x7b\"event\":\"E\",\"data\":1\x7d\r"] ∧
    (runChunks c2Start c2Chunks).2.filter isChanTriggerEv = [] := by
  exact ⟨rfl, rfl, rfl⟩

/-- C3: the decoder buffer invariant.  From any well-formed state,
processing any chunk preserves well-formedness (in payload mode the
accumulated bytes never exceed the declared count), and whenever the
accumulated data reaches the declared byte count, exactly `bytesExpected`
characters are passed to `handleCompleteMessage` and the entire surplus is
re-fed through line-mode parsing from the reset state — no byte dropped,
none processed twice. -/
theorem c3_decoder_invariant_and_completion (s : ConnectorSt) (chunk : List Char)
    (hinv : DecoderInv s) :
    DecoderInv (processNatsMessage s chunk).1 ∧
    (0 < (processNatsMessage s chunk).1.bytesExpected →
      ((processNatsMessage s chunk).1.pendingData.length : Int) ≤
        (processNatsMessage s chunk).1.bytesExpected) ∧
    (0 < s.bytesExpected →
      s.bytesExpected ≤ ((s.pendingData ++ chunk).length : Int) →
      processNatsMessage s chunk =
        ((processNatsMessage { s with bytesExpected := 0, pendingData := [] }
            (substrFrom s.bytesExpected (s.pendingData ++ chunk))).1,
         handleCompleteMessage { s with bytesExpected := 0, pendingData := [] }
             (substrTo s.bytesExpected (s.pendingData ++ chunk)) ++
           (processNatsMessage { s with bytesExpected := 0, pendingData := [] }
             (substrFrom s.bytesExpected (s.pendingData ++ chunk))).2)) := by
  refine ⟨processNatsFuel_inv _ s chunk hinv, fun h => ?_, fun hb hle => ?_⟩
  · exact le_of_lt ((processNatsFuel_inv _ s chunk hinv).2 h)
  · have hp : (s.pendingData.length : Int) < s.bytesExpected := hinv.2 hb
    show processNatsFuel (chunk.length + 1) s chunk = _
    simp only [processNatsFuel]
    rw [if_pos ⟨hb, hp⟩, if_pos hle]
    by_cases ht : jsTrim (substrFrom s.bytesExpected (s.pendingData ++ chunk)) = []
    · rw [if_pos ht]
      have hws : ∀ x ∈ substrFrom s.bytesExpected (s.pendingData ++ chunk), wsJS x :=
        (jsTrim_eq_nil_iff _).1 ht
      have hnoop :
          processNatsMessage { s with bytesExpected := 0, pendingData := [] }
            (substrFrom s.bytesExpected (s.pendingData ++ chunk)) =
            ({ s with bytesExpected := 0, pendingData := [] }, []) :=
        processNatsFuel_ws _ _ _ rfl hws
      rw [hnoop]
      simp
    · rw [if_neg ht]
      have hle2 := hle
      simp only [List.length_append] at hle2
      have hrem :
          (substrFrom s.bytesExpected (s.pendingData ++ chunk)).length < chunk.length := by
        simp only [substrFrom, List.length_drop, List.length_append]
        omega
      have hcong :
          processNatsFuel chunk.length { s with bytesExpected := 0, pendingData := [] }
            (substrFrom s.bytesExpected (s.pendingData ++ chunk)) =
            processNatsMessage { s with bytesExpected := 0, pendingData := [] }
              (substrFrom s.bytesExpected (s.pendingData ++ chunk)) :=
        processNatsFuel_congr chunk.length _ _ _ hrem (by omega)
      rw [hcong]

/-- Witness for C3 at a concrete payload-mode state and chunk. -/
theorem c3_decoder_invariant_witness :
    DecoderInv
      { initConnector defaultOptions with bytesExpected := 2, pendingData := str "h" } ∧
    DecoderInv
      (processNatsMessage
        { initConnector defaultOptions with bytesExpected := 2, pendingData := str "h" }
        (str "i\r\n")).1 :=
  ⟨by decide,
   (c3_decoder_invariant_and_completion
     { initConnector defaultOptions with bytesExpected := 2, pendingData := str "h" }
     (str "i\r\n") (by decide)).1⟩

/-- C4: a malformed `MSG` header — fewer than 4 space-separated fields, or
a byte count `parseInt` cannot read — is logged and dropped: the decoder
state is returned unchanged in the safe line-mode default
(`bytesExpected = 0`, no pending payload), the emitted events are logging
only, and no leftover is scheduled for reprocessing. -/
theorem c4_malformed_msg_header (s : ConnectorSt) (headerLine remainingData : List Char)
    (hline : s.bytesExpected = 0)
    (hmal : (splitOnChar ' ' headerLine).length < 4 ∨
      parseIntJS ((splitOnChar ' ' headerLine).getLastD []) = none) :
    (handleMsgHeaderCore s headerLine remainingData).st = s ∧
    (handleMsgHeaderCore s headerLine remainingData).st.bytesExpected = 0 ∧
    (handleMsgHeaderCore s headerLine remainingData).evs.all isLogEv = true ∧
    (handleMsgHeaderCore s headerLine remainingData).extra = none := by
  have hst : ({ s with bytesExpected := 0 } : ConnectorSt) = s := by rw [← hline]
  by_cases h4 : (splitOnChar ' ' headerLine).length < 4
  · refine ⟨?_, ?_, ?_, ?_⟩ <;> simp [handleMsgHeaderCore, if_pos h4, isLogEv, hline]
  · rcases hmal with h | hnone
    · exact absurd h h4
    · have hnone' : parseIntJS ((splitOnChar ' ' headerLine).getLast?.getD []) = none := by
        rw [← List.getLastD_eq_getLast?]; exact hnone
      refine ⟨?_, ?_, ?_, ?_⟩ <;>
        simp [handleMsgHeaderCore, if_neg h4, hnone, hnone', isLogEv, hline, hst]

/-- Witness for C4 at the concrete malformed header `MSG a 5`. -/
theorem c4_malformed_msg_header_witness :
    (initConnector defaultOptions).bytesExpected = 0 ∧
    (splitOnChar ' ' (str "MSG a 5")).length < 4 ∧
    (handleMsgHeaderCore (initConnector defaultOptions) (str "MSG a 5") (str "x")).st =
      initConnector defaultOptions ∧
    (handleMsgHeaderCore (initConnector defaultOptions) (str "MSG a 5") (str "x")).extra =
      none :=
  ⟨rfl, by decide,
   (c4_malformed_msg_header (initConnector defaultOptions) (str "MSG a 5") (str "x")
     rfl (Or.inl (by decide))).1,
   (c4_malformed_msg_header (initConnector defaultOptions) (str "MSG a 5") (str "x")
     rfl (Or.inl (by decide))).2.2.2⟩

/-- C5: the specification claims that on `+OK` the connector becomes
connected, resets the reconnect counter, starts the keepalive, replays the
subscribed channels, emits `connect`/`connected`, and resolves the pending
connect promise.  The code performs all of these except the last:
`connect()` never stashes `_resolve` on the promise, so
`promise._resolve?.()` is a no-op and the promise never resolves — the
final trace has no resolution event and `promiseResolved` stays false. -/
theorem c5_ack_effects_but_promise_never_resolves :
    (handleOkMessage c5Start).1.connected = true ∧
    (handleOkMessage c5Start).1.isConnecting = false ∧
    (handleOkMessage c5Start).1.reconnectAttempts = 0 ∧
    (handleOkMessage c5Start).1.pingActive = true ∧
    (handleOkMessage c5Start).2 =
      [Ev.startPing,
       Ev.send (sendToNatsCmd (NatsOut.sub (str "a") none (str "sid_a"))),
       Ev.connTrigger (str "connect") 7] ∧
    (handleOkMessage c5Start).1.promiseResolved = false ∧
    ((handleOkMessage c5Start).2.all fun e => !isResolveEv e) = true := by
  exact ⟨rfl, rfl, rfl, rfl, rfl, rfl, rfl⟩

/-- C6 counterexample: the claim lists 15187 ms as the delay of attempt 5
with base delay 3000 ms, but the code computes
`min(3000 · 1.5⁴, 30000) = 15187.5` ms. -/
theorem c6_backoff_attempt5_counterexample :
    (scheduleReconnect
      { initConnector defaultOptions with reconnectAttempts := 4 }).2.1 ≠ (15187 : ℚ) := by
  simp only [scheduleReconnect, initConnector, defaultOptions]
  norm_num [min_def]

/-- C6 (amended): the delay of attempt `n` (counter incremented before the
computation) is `min(base · 1.5^(n−1), 30000)`; with base 3000 ms,
attempts 1–5 yield 3000, 4500, 6750, 10125 and 15187.5 ms. -/
theorem c6_backoff_amended :
    (∀ s : ConnectorSt,
        (scheduleReconnect s).1.reconnectAttempts = s.reconnectAttempts + 1 ∧
        (scheduleReconnect s).2.1 =
          min (s.options.reconnectDelayOpt * (3 / 2 : ℚ) ^ s.reconnectAttempts) 30000) ∧
    [0, 1, 2, 3, 4].map
        (fun k =>
          (scheduleReconnect
            { initConnector defaultOptions with reconnectAttempts := k }).2.1) =
      [3000, 4500, 6750, 10125, 30375 / 2] := by
  constructor
  · intro s
    exact ⟨rfl, by simp [scheduleReconnect]⟩
  · simp only [List.map, scheduleReconnect, initConnector, defaultOptions]
    norm_num [min_def]

/-- C7: `NatsEventFormatter.format` is idempotent — an already-namespaced
event name is returned unchanged, so formatting twice equals formatting
once, for every namespace and event name. -/
theorem c7_format_idempotent (ns e : List Char) :
    NatsEventFormatter.format ns (NatsEventFormatter.format ns e) =
      NatsEventFormatter.format ns e := by
  unfold NatsEventFormatter.format
  by_cases h : startsWith ns e = true
  · rw [if_pos h, if_pos h]
  · rw [if_neg h]
    have hpre : startsWith ns (ns ++ '\\' :: e) = true := by
      unfold startsWith
      rw [List.isPrefixOf_iff_prefix]
      exact List.prefix_append ns _
    rw [if_pos hpre]

/-- C8: `stopListening()` with no arguments leaves every channel — plain,
private, encrypted or presence, in any prior state — unsubscribed with an
empty listener table. -/
theorem c8_stop_listening_resets (cs : ConnSnap) (ch : ChannelSt) :
    (stopListeningCh cs ch none none).1.subscribed = false ∧
    (stopListeningCh cs ch none none).1.listeners = [] := by
  obtain ⟨k, n, l, sb⟩ := ch
  simp only [stopListeningCh, unsubscribeCh]
  cases k <;> cases sb <;> simp

/-- C9: when the authorization endpoint fails for a private channel, the
channel's `subscribe()` rejects with that error and the channel stays
unsubscribed and unchanged; a `listen()` that triggered the subscribe
returns normally with the listener registered, the channel still
unsubscribed, and the failure surfacing only as logging events. -/
theorem c9_private_auth_failure (cs : ConnSnap) (code : Nat) (ch : ChannelSt)
    (event : List Char) (cb : Nat)
    (hk : ch.kind = ChannelKind.priv) (hs : ch.subscribed = false)
    (hl : ch.listeners = []) :
    (subscribeCh cs (Except.error code) ch).2.1 =
      Except.error (SubErr.authFailed code) ∧
    (subscribeCh cs (Except.error code) ch).1 = ch ∧
    (listenCh cs (Except.error code) ch event cb).1.subscribed = false ∧
    (listenCh cs (Except.error code) ch event cb).1.listeners = [(event, [cb])] ∧
    (listenCh cs (Except.error code) ch event cb).2 =
      [Ev.logError (str "NATS Echo: Authentication failed for"),
       Ev.logError (str "Authentication failed for private channel"),
       Ev.logError (str "listen: subscribe rejected")] := by
  obtain ⟨k, n, l, sb⟩ := ch
  dsimp only at hk hs hl
  subst hk; subst hs; subst hl
  simp [subscribeCh, subscribePrivate, authenticatePrivateChannel, listenCh,
    addListener, insertA, lookupA]

/-- Witness for C9 at a concrete private channel and failing endpoint. -/
theorem c9_private_auth_failure_witness :
    ((⟨ChannelKind.priv, str "private-x", [], false⟩ : ChannelSt)).kind =
      ChannelKind.priv ∧
    (subscribeCh ⟨false, false, []⟩ (Except.error 5)
        ⟨ChannelKind.priv, str "private-x", [], false⟩).2.1 =
      Except.error (SubErr.authFailed 5) ∧
    (listenCh ⟨false, false, []⟩ (Except.error 5)
        ⟨ChannelKind.priv, str "private-x", [], false⟩ (str "E") 0).1.subscribed =
      false :=
  ⟨rfl,
   (c9_private_auth_failure ⟨false, false, []⟩ 5
     ⟨ChannelKind.priv, str "private-x", [], false⟩ (str "E") 0 rfl rfl rfl).1,
   (c9_private_auth_failure ⟨false, false, []⟩ 5
     ⟨ChannelKind.priv, str "private-x", [], false⟩ (str "E") 0 rfl rfl rfl).2.2.1⟩

/-- C10: `channel(name)` is idempotent — a second call with the same name
returns the same channel object and leaves the state untouched — and any
sequence of `channel(name)` calls from a fresh connector leaves the channel
map and the subscription map with identical, duplicate-free key lists
containing exactly the distinct requested names. -/
theorem c10_channel_idempotent :
    (∀ (s : ConnectorSt) (n : List Char),
        channelConn (channelConn s n).1 n = ((channelConn s n).1, (channelConn s n).2)) ∧
    (∀ (opts : NatsOptions) (names : List (List Char)),
        ((channelFold opts names).channels.map Prod.fst =
          (channelFold opts names).subscriptions.map Prod.fst) ∧
        ((channelFold opts names).channels.map Prod.fst).Nodup ∧
        (∀ x, x ∈ (channelFold opts names).channels.map Prod.fst ↔ x ∈ names)) := by
  constructor
  · intro s n
    cases hl : lookupA s.channels n with
    | some ch => simp [channelConn, hl]
    | none => simp [channelConn, hl, lookupA_insertA_self]
  · intro opts names
    have h := channelFold_aligned names (initConnector opts) rfl List.nodup_nil
    refine ⟨h.1, h.2.1, fun x => ?_⟩
    rw [channelFold, h.2.2 x]
    simp [initConnector]

end NatsEcho
